import Mathlib

/-!
# wailsext: the dynamic accessor `Mapper` and the host call forwarder

A shallow embedding of `wailsext.go` (build tags `js && wasm`).

* Go `interface{}` values are the inductive `Any`, one constructor per dynamic
  type the type switches of the source distinguish, plus the remaining Go kinds.
* `js.Value` is a handle (`js.Value.ref`).  Everything `syscall/js` does with a
  handle is outside the repository, so it is taken as a parameter: the structure
  `Host`.  Its operations are fallible exactly where `syscall/js` documents a
  panic (`Int`, `Float`, `Bool`, `Get`, `Index`, `Length`, `Call`, `Invoke`), and
  total where it documents none (`String`, `Truthy`).
* A Go `panic` is an `Except.error`; code that also talks to the host through
  `Call`/`Invoke` returns an `Outcome`: the events handed to the host so far,
  and the result.
* On `GOARCH=wasm` the type `int` is 64 bits wide.
-/

set_option autoImplicit false

namespace wailsext

/-! ## Values -/

namespace js

/-- A `js.Value`: a reference into the object graph of the host. -/
structure Value where
  ref : Nat
  deriving DecidableEq, Repr

end js

/-- A non-nil Go func value supplied by the caller of this package. Its body is
the caller's code; running it is recorded as `Event.goCall`. -/
structure GoFunc where
  id : Nat
  deriving DecidableEq, Repr

/-- The function values this package passes to `js.FuncOf`. -/
inductive Closure where
  /-- The value `js.FuncOf(cb)` for a callback passed through unchanged (`WailsCall`). -/
  | user (cb : GoFunc)
  /-- The func literal of `WindowGetSize`, capturing its parameter `cb`
  (`none` is a nil func value). -/
  | windowGetSize (cb : Option GoFunc)
  deriving DecidableEq, Repr

/-- A Go floating-point value (`float64`, or a `float32`, every one of which is
a `float64` too): a finite value is the rational number it denotes. -/
inductive GoFloat where
  | finite (q : ℚ)
  | negZero
  | posInf
  | negInf
  | nan
  deriving DecidableEq

/-- A Go `interface{}` value, by dynamic type. Integer payloads are the
mathematical value of the machine integer. -/
inductive Any where
  | nil
  | int (v : Int)
  | int64 (v : Int)
  | int32 (v : Int)
  | int16 (v : Int)
  | int8 (v : Int)
  | uint (v : Nat)
  | uint64 (v : Nat)
  | uint32 (v : Nat)
  | uint16 (v : Nat)
  | uint8 (v : Nat)
  | uintptr (v : Nat)
  | float64 (f : GoFloat)
  | float32 (f : GoFloat)
  | string (s : String)
  | bool (b : Bool)
  /-- A value of type `[]interface{}`. -/
  | slice (xs : List Any)
  /-- A value of the defined type `Mapper`. -/
  | mapper (m : List (String × Any))
  /-- A value of type `js.Value`. -/
  | jsValue (v : js.Value)
  /-- A value of type `js.Func`, as made by `js.FuncOf`. -/
  | func (c : Closure)
  /-- A value of any other dynamic type, named by `typeName`. -/
  | other (typeName : String)

/-- The Go type `Mapper`, `map[string]interface{}`: an association list read by
first match. -/
abbrev Mapper := List (String × Any)

/-- What a `panic` carries. -/
inductive Panic where
  /-- A `panic(s)` with a string, raised by this package. -/
  | msg (s : String)
  /-- A panic raised inside `syscall/js` (a `ValueError` or a `js.Error`). -/
  | js (s : String)
  /-- A run-time panic of Go itself. -/
  | runtime (s : String)
  deriving DecidableEq, Repr

/-! ## The host -/

/-- The part of `syscall/js` the package uses, read on one snapshot of the host,
and the one compiler-dependent conversion. An `Except.error` of a host operation
is the panic `syscall/js` raises there. -/
structure Host where
  /-- The result of `js.Global()`. -/
  global : js.Value
  /-- The result of `v.Get(p)`. -/
  jsGet : js.Value → String → Except String js.Value
  /-- The result of `v.Truthy()`. -/
  jsTruthy : js.Value → Bool
  /-- The result of `v.Int()`. -/
  jsInt : js.Value → Except String Int
  /-- The result of `v.Float()`. -/
  jsFloat : js.Value → Except String GoFloat
  /-- The result of `v.String()`. -/
  jsString : js.Value → String
  /-- The result of `v.Bool()`. -/
  jsBool : js.Value → Except String Bool
  /-- The result of `v.Length()`. -/
  jsLength : js.Value → Except String Int
  /-- The result of `v.Index(i)`. -/
  jsIndex : js.Value → Int → Except String js.Value
  /-- What `v.Call(m, args...)` gives back. -/
  jsCall : js.Value → String → List Any → Except String js.Value
  /-- What `v.Invoke(args...)` gives back. -/
  jsInvoke : js.Value → List Any → Except String js.Value
  /-- The result of `int(f)` where Go leaves it to the implementation: `f` is
  not finite, or its truncation does not fit `int`. -/
  floatToIntUndefined : GoFloat → Int

/-- A panic of `syscall/js` seen from Go. -/
def liftJS {α : Type} : Except String α → Except Panic α
  | .ok a => .ok a
  | .error e => .error (Panic.js e)

/-- The package-level variables `windowRuntime` and `WindowGo`. -/
structure Globals where
  windowRuntime : js.Value
  WindowGo : js.Value

/-- The initialisers of the package-level variables:
`js.Global().Get("window").Get("runtime")` and `js.Global().Get("window").Get("go")`. -/
def initGlobals (h : Host) : Except Panic Globals := do
  let w1 ← liftJS (h.jsGet h.global "window")
  let rt ← liftJS (h.jsGet w1 "runtime")
  let w2 ← liftJS (h.jsGet h.global "window")
  let go ← liftJS (h.jsGet w2 "go")
  pure { windowRuntime := rt, WindowGo := go }

/-! ## Conversions -/

/-- The conversion to `int` (64 bits, two's complement) of an integer value. -/
def toInt (v : Int) : Int :=
  (v + 2 ^ 63) % 2 ^ 64 - 2 ^ 63

/-- Truncation toward zero of a rational number. -/
def truncQ (q : ℚ) : Int :=
  if 0 ≤ q then ⌊q⌋ else ⌈q⌉

/-- The conversion `int(f)` of a floating-point value: the fraction is
discarded; where the value cannot be represented the result is the
implementation's. -/
def floatToInt (h : Host) (f : GoFloat) : Int :=
  match f with
  | .finite q =>
    if -(2 : Int) ^ 63 ≤ truncQ q ∧ truncQ q < (2 : Int) ^ 63 then truncQ q
    else h.floatToIntUndefined f
  | .negZero => 0
  | _ => h.floatToIntUndefined f

/-- The conversion `float64(f)` of a `float32`: exact. -/
def toFloat64 (f : GoFloat) : GoFloat := f

/-! ## Mapper -/

/-- The map index expression `m[key]`: the nil interface when `key` is absent. -/
def Mapper.index (m : Mapper) (key : String) : Any :=
  match List.lookup key m with
  | some x => x
  | none => Any.nil

/-- The map assignment `m[key] = x`. -/
def Mapper.set (m : Mapper) (key : String) (x : Any) : Mapper :=
  (key, x) :: m.filter (fun e => e.1 != key)

/-- Go `func (m Mapper) Get(key string) interface{}`. -/
def Mapper.Get (m : Mapper) (key : String) : Any :=
  m.index key

/-- Go `func (m Mapper) GetInt(key string) int`. -/
def Mapper.GetInt (h : Host) (m : Mapper) (key : String) : Except Panic Int :=
  match m.index key with
  | .int val => .ok val
  | .int64 val => .ok (toInt val)
  | .int32 val => .ok (toInt val)
  | .int16 val => .ok (toInt val)
  | .int8 val => .ok (toInt val)
  | .float64 val => .ok (floatToInt h val)
  | .float32 val => .ok (floatToInt h val)
  | .jsValue val => liftJS (h.jsInt val)
  | _ => .error (Panic.msg "unknown type")

/-- Go `func (m Mapper) GetFloat(key string) float64`. -/
def Mapper.GetFloat (h : Host) (m : Mapper) (key : String) : Except Panic GoFloat :=
  match m.index key with
  | .float64 val => .ok val
  | .float32 val => .ok (toFloat64 val)
  | .jsValue val => liftJS (h.jsFloat val)
  | _ => .error (Panic.msg "unknown type")

/-- Go `func (m Mapper) GetString(key string) string`. -/
def Mapper.GetString (h : Host) (m : Mapper) (key : String) : Except Panic String :=
  match m.index key with
  | .string val => .ok val
  | .jsValue val => .ok (h.jsString val)
  | _ => .error (Panic.msg "unknown type")

/-- Go `func (m Mapper) GetBool(key string) bool`. -/
def Mapper.GetBool (h : Host) (m : Mapper) (key : String) : Except Panic Bool :=
  match m.index key with
  | .bool val => .ok val
  | .jsValue val => liftJS (h.jsBool val)
  | _ => .error (Panic.msg "unknown type")

/-- The loop of `GetArray`, `for i := 0; i < val.Length(); i++ { arr[i] = val.Index(i) }`,
with `n` the length and `todo` the iterations left, so that `i = n - todo`. -/
def Mapper.GetArray.loop (h : Host) (val : js.Value) (n : Nat) :
    Nat → List Any → Except Panic (List Any)
  | 0, arr => .ok arr
  | todo + 1, arr =>
    match h.jsIndex val ((n - (todo + 1) : Nat) : Int) with
    | .error e => .error (Panic.js e)
    | .ok e => Mapper.GetArray.loop h val n todo (arr.set (n - (todo + 1)) (Any.jsValue e))

/-- Go `func (m Mapper) GetArray(key string) []interface{}`. -/
def Mapper.GetArray (h : Host) (m : Mapper) (key : String) : Except Panic (List Any) :=
  match m.index key with
  | .slice val => .ok val
  | .jsValue val =>
    match h.jsLength val with
    | .error e => .error (Panic.js e)
    | .ok len =>
      if len < 0 then .error (Panic.runtime "makeslice: len out of range")
      else Mapper.GetArray.loop h val len.toNat len.toNat (List.replicate len.toNat Any.nil)
  | _ => .error (Panic.msg "unknown type")

/-- The loop of `parseArg`,
`for i := 0; i < keys.Length(); i++ { key := keys.Index(i).String(); m[key] = arg.Get(key) }`,
with `n` the length and `todo` the iterations left, so that `i = n - todo`. -/
def Mapper.parseArg.loop (h : Host) (keys arg : js.Value) (n : Nat) :
    Nat → Mapper → Except Panic Mapper
  | 0, m => .ok m
  | todo + 1, m =>
    match h.jsIndex keys ((n - (todo + 1) : Nat) : Int) with
    | .error e => .error (Panic.js e)
    | .ok k =>
      match h.jsGet arg (h.jsString k) with
      | .error e => .error (Panic.js e)
      | .ok x => Mapper.parseArg.loop h keys arg n todo (m.set (h.jsString k) (Any.jsValue x))

/-- Go `func (m Mapper) parseArg(arg js.Value)`: the map after the call. -/
def Mapper.parseArg (h : Host) (m : Mapper) (arg : js.Value) : Except Panic Mapper :=
  match h.jsGet h.global "Object" with
  | .error e => .error (Panic.js e)
  | .ok object =>
    match h.jsCall object "keys" [Any.jsValue arg] with
    | .error e => .error (Panic.js e)
    | .ok keys =>
      match h.jsLength keys with
      | .error e => .error (Panic.js e)
      | .ok len => Mapper.parseArg.loop h keys arg len.toNat len.toNat m

/-- Go `func NewMapper(arg js.Value) Mapper`. -/
def NewMapper (h : Host) (arg : js.Value) : Except Panic Mapper :=
  Mapper.parseArg h [] arg

/-- Go `func (m Mapper) GetMap(key string) Mapper`. -/
def Mapper.GetMap (h : Host) (m : Mapper) (key : String) : Except Panic Mapper :=
  match m.index key with
  | .mapper val => .ok val
  | .jsValue val => NewMapper h val
  | _ => .error (Panic.msg "unknown type")

/-! ## The host call forwarder -/

/-- What the package hands to the host, or to a callback of its caller. -/
inductive Event where
  /-- The call `recv.Call(method, args...)` was issued. -/
  | call (recv : js.Value) (method : String) (args : List Any)
  /-- The call `fn.Invoke(args...)` was issued. -/
  | invoke (fn : js.Value) (args : List Any)
  /-- The Go callback `f` of the caller was run with `args`. -/
  | goCall (f : GoFunc) (args : List Any)

/-- A run of forwarding code: the events in the order issued, and how the run
ended. -/
structure Outcome (α : Type) where
  trace : List Event
  result : Except Panic α

/-- Go `func GetStructure(pkgName, structName string) js.Value`. -/
def GetStructure (h : Host) (g : Globals) (pkgName structName : String) :
    Except Panic js.Value :=
  match h.jsGet g.WindowGo pkgName with
  | .error e => .error (Panic.js e)
  | .ok pkg =>
    if !h.jsTruthy pkg then .error (Panic.msg ("package not found: " ++ pkgName))
    else
      match h.jsGet pkg structName with
      | .error e => .error (Panic.js e)
      | .ok strct =>
        if !h.jsTruthy strct then .error (Panic.msg ("structure not found: " ++ structName))
        else .ok strct

/-- Go `func WailsCall(pkgName, structName, funcName string, cb func(...) any, args ...any) js.Value`;
`cb = none` is the nil callback. -/
def WailsCall (h : Host) (g : Globals) (pkgName structName funcName : String)
    (cb : Option GoFunc) (args : List Any) : Outcome js.Value :=
  match GetStructure h g pkgName structName with
  | .error p => { trace := [], result := .error p }
  | .ok strct =>
    match cb with
    | none =>
      { trace := [Event.call strct funcName args],
        result := liftJS (h.jsCall strct funcName args) }
    | some f =>
      match h.jsGet strct funcName with
      | .error e => { trace := [], result := .error (Panic.js e) }
      | .ok function =>
        if !h.jsTruthy function then
          { trace := [], result := .error (Panic.msg ("function not found: " ++ funcName)) }
        else
          match h.jsInvoke function args with
          | .error e =>
            { trace := [Event.invoke function args], result := .error (Panic.js e) }
          | .ok promise =>
            { trace := [Event.invoke function args,
                        Event.call promise "then" [Any.func (Closure.user f)]],
              result := liftJS (h.jsCall promise "then" [Any.func (Closure.user f)]) }

/-- Go `func MainCall(strctName, funcName string, cb func(...) any, args ...any) js.Value`. -/
def MainCall (h : Host) (g : Globals) (strctName funcName : String)
    (cb : Option GoFunc) (args : List Any) : Outcome js.Value :=
  WailsCall h g "main" strctName funcName cb args

/-- The func literal of `WindowGetSize`:
`func(this js.Value, args []js.Value) any { cb(args[0].Get("w").Int(), args[0].Get("h").Int()); return nil }`.
The callback `cb` is taken to return. -/
def WindowGetSize.continuation (h : Host) (cb : Option GoFunc) (_this : js.Value)
    (args : List js.Value) : Outcome Any :=
  match args with
  | [] => { trace := [], result := .error (Panic.runtime "index out of range [0] with length 0") }
  | r :: _ =>
    match h.jsGet r "w" with
    | .error e => { trace := [], result := .error (Panic.js e) }
    | .ok w =>
      match h.jsInt w with
      | .error e => { trace := [], result := .error (Panic.js e) }
      | .ok width =>
        match h.jsGet r "h" with
        | .error e => { trace := [], result := .error (Panic.js e) }
        | .ok hh =>
          match h.jsInt hh with
          | .error e => { trace := [], result := .error (Panic.js e) }
          | .ok height =>
            match cb with
            | none =>
              { trace := [],
                result := .error (Panic.runtime "invalid memory address or nil pointer dereference") }
            | some f =>
              { trace := [Event.goCall f [Any.int width, Any.int height]], result := .ok Any.nil }

/-- The body of a function value made by this package; the body of a callback
passed through unchanged is the caller's. -/
def Closure.body (h : Host) : Closure → Option (js.Value → List js.Value → Outcome Any)
  | .user _ => none
  | .windowGetSize cb => some (WindowGetSize.continuation h cb)

/-- Go `func WindowGetSize(cb func(width, height int))`. -/
def WindowGetSize (h : Host) (g : Globals) (cb : Option GoFunc) : Outcome Unit :=
  match h.jsCall g.windowRuntime "WindowGetSize" [] with
  | .error e =>
    { trace := [Event.call g.windowRuntime "WindowGetSize" []], result := .error (Panic.js e) }
  | .ok promise =>
    match h.jsCall promise "then" [Any.func (Closure.windowGetSize cb)] with
    | .error e =>
      { trace := [Event.call g.windowRuntime "WindowGetSize" [],
                  Event.call promise "then" [Any.func (Closure.windowGetSize cb)]],
        result := .error (Panic.js e) }
    | .ok _ =>
      { trace := [Event.call g.windowRuntime "WindowGetSize" [],
                  Event.call promise "then" [Any.func (Closure.windowGetSize cb)]],
        result := .ok () }

/-! ## Vocabulary of the specification -/

/-- The dynamic types of `Any`. -/
inductive Kind where
  | nil | int | int64 | int32 | int16 | int8
  | uint | uint64 | uint32 | uint16 | uint8 | uintptr
  | float64 | float32 | string | bool | slice | mapper | jsValue | func | other
  deriving DecidableEq, Repr

/-- The dynamic type of a value. -/
def Any.kind : Any → Kind
  | .nil => .nil
  | .int _ => .int
  | .int64 _ => .int64
  | .int32 _ => .int32
  | .int16 _ => .int16
  | .int8 _ => .int8
  | .uint _ => .uint
  | .uint64 _ => .uint64
  | .uint32 _ => .uint32
  | .uint16 _ => .uint16
  | .uint8 _ => .uint8
  | .uintptr _ => .uintptr
  | .float64 _ => .float64
  | .float32 _ => .float32
  | .string _ => .string
  | .bool _ => .bool
  | .slice _ => .slice
  | .mapper _ => .mapper
  | .jsValue _ => .jsValue
  | .func _ => .func
  | .other _ => .other

namespace Spec

/-- The specification's "native numeric value": a value of any Go integer or
floating-point kind. -/
def isNativeNumeric (x : Any) : Bool :=
  decide (x.kind ∈ [Kind.int, Kind.int64, Kind.int32, Kind.int16, Kind.int8,
    Kind.uint, Kind.uint64, Kind.uint32, Kind.uint16, Kind.uint8, Kind.uintptr,
    Kind.float64, Kind.float32])

/-- The specification's "converted to int by truncation toward zero": an
integer is its own value, a finite floating-point value loses its fraction. -/
def intOf : Any → Option Int
  | .int v => some v
  | .int64 v => some v
  | .int32 v => some v
  | .int16 v => some v
  | .int8 v => some v
  | .uint v => some (v : Int)
  | .uint64 v => some (v : Int)
  | .uint32 v => some (v : Int)
  | .uint16 v => some (v : Int)
  | .uint8 v => some (v : Int)
  | .uintptr v => some (v : Int)
  | .float64 (.finite q) => some (truncQ q)
  | .float32 (.finite q) => some (truncQ q)
  | .float64 .negZero => some 0
  | .float32 .negZero => some 0
  | _ => none

/-- The specification's "widened to float64": a floating-point value is kept,
an integer becomes the floating-point value of the same magnitude. -/
def floatOf : Any → Option GoFloat
  | .float64 f => some f
  | .float32 f => some f
  | .int v => some (.finite v)
  | .int64 v => some (.finite v)
  | .int32 v => some (.finite v)
  | .int16 v => some (.finite v)
  | .int8 v => some (.finite v)
  | .uint v => some (.finite v)
  | .uint64 v => some (.finite v)
  | .uint32 v => some (.finite v)
  | .uint16 v => some (.finite v)
  | .uint8 v => some (.finite v)
  | .uintptr v => some (.finite v)
  | _ => none

/-- A lookup by name in the host "hits" when it yields a handle the code takes
for present (a truthy one). -/
def lookup (h : Host) (v : js.Value) (name : String) : Option js.Value :=
  match h.jsGet v name with
  | .ok x => if h.jsTruthy x then some x else none
  | .error _ => none

/-- The handle at `root[pkgName][structName]`, when both lookups hit. -/
def resolve (h : Host) (g : Globals) (pkgName structName : String) : Option js.Value :=
  match lookup h g.WindowGo pkgName with
  | some pkg => lookup h pkg structName
  | none => none

/-- The names at the indices `n - todo, ..., n - 1` of the host array `keys`,
each read as a string. -/
def namesFrom (h : Host) (keys : js.Value) (n : Nat) : Nat → Option (List String)
  | 0 => some []
  | todo + 1 =>
    match h.jsIndex keys ((n - (todo + 1) : Nat) : Int) with
    | .error _ => none
    | .ok k =>
      match namesFrom h keys n todo with
      | some rest => some (h.jsString k :: rest)
      | none => none

/-- The own-property names the host enumerates for `v`: the elements of
`Object.keys(v)`, in the order of the host. -/
def ownNames (h : Host) (v : js.Value) : Option (List String) :=
  match h.jsGet h.global "Object" with
  | .error _ => none
  | .ok object =>
    match h.jsCall object "keys" [Any.jsValue v] with
    | .error _ => none
    | .ok keys =>
      match h.jsLength keys with
      | .error _ => none
      | .ok len => namesFrom h keys len.toNat len.toNat

end Spec

/-! ## A sample host

`window.go.main.Foo.Greet` is a function returning a pending result;
`window.runtime.WindowGetSize()` returns a pending result; handle 11 is an
object `{w: 800, h: 600}` and handle 18 an array of three elements. -/

/-- The properties of the sample host's objects; 0 is `undefined`. -/
def sampleGet (v : js.Value) (p : String) : Except String js.Value :=
  match v.ref, p with
  | 1, "window" => .ok ⟨2⟩
  | 1, "Object" => .ok ⟨10⟩
  | 2, "runtime" => .ok ⟨3⟩
  | 2, "go" => .ok ⟨4⟩
  | 4, "main" => .ok ⟨5⟩
  | 5, "Foo" => .ok ⟨6⟩
  | 6, "Greet" => .ok ⟨7⟩
  | 11, "w" => .ok ⟨12⟩
  | 11, "h" => .ok ⟨13⟩
  | 0, _ => .error "syscall/js: call of Value.Get on undefined"
  | 12, _ => .error "syscall/js: call of Value.Get on number"
  | 13, _ => .error "syscall/js: call of Value.Get on number"
  | _, _ => .ok ⟨0⟩

/-- The sample host. -/
def sampleHost : Host where
  global := ⟨1⟩
  jsGet := sampleGet
  jsTruthy := fun v => v.ref != 0
  jsInt := fun v =>
    match v.ref with
    | 12 => .ok 800
    | 13 => .ok 600
    | _ => .error "syscall/js: call of Value.Int on a value that is not a number"
  jsFloat := fun v =>
    match v.ref with
    | 12 => .ok (.finite 800)
    | 13 => .ok (.finite 600)
    | _ => .error "syscall/js: call of Value.Float on a value that is not a number"
  jsString := fun v =>
    match v.ref with
    | 15 => "w"
    | 16 => "h"
    | 0 => "<undefined>"
    | 12 => "<number: 800>"
    | 13 => "<number: 600>"
    | _ => "<object>"
  jsBool := fun v =>
    match v.ref with
    | 19 => .ok true
    | _ => .error "syscall/js: call of Value.Bool on a value that is not a boolean"
  jsLength := fun v =>
    match v.ref with
    | 14 => .ok 2
    | 18 => .ok 3
    | 0 => .error "syscall/js: call of Value.Length on undefined"
    | _ => .ok 0
  jsIndex := fun v i =>
    match v.ref, i with
    | 14, 0 => .ok ⟨15⟩
    | 14, 1 => .ok ⟨16⟩
    | 18, 0 => .ok ⟨12⟩
    | 18, 1 => .ok ⟨13⟩
    | 18, 2 => .ok ⟨15⟩
    | 0, _ => .error "syscall/js: call of Value.Index on undefined"
    | _, _ => .ok ⟨0⟩
  jsCall := fun v m args =>
    match v.ref, m, args with
    | 10, "keys", [Any.jsValue ⟨11⟩] => .ok ⟨14⟩
    | 3, "WindowGetSize", [] => .ok ⟨17⟩
    | 6, "Greet", _ => .ok ⟨8⟩
    | 8, "then", _ => .ok ⟨9⟩
    | 17, "then", _ => .ok ⟨9⟩
    | _, _, _ => .error ("syscall/js: Value.Call: property " ++ m ++ " is not a function, got undefined")
  jsInvoke := fun v _ =>
    match v.ref with
    | 7 => .ok ⟨8⟩
    | _ => .error "syscall/js: call of Value.Invoke on a value that is not a function"
  floatToIntUndefined := fun _ => -9223372036854775808

/-- The package-level variables on the sample host. -/
def sampleGlobals : Globals where
  windowRuntime := ⟨3⟩
  WindowGo := ⟨4⟩

/-! ## Lemmas -/

theorem toInt_of_inRange (v : Int) (h1 : -(2 : Int) ^ 63 ≤ v) (h2 : v < (2 : Int) ^ 63) :
    toInt v = v := by
  unfold toInt
  norm_num at h1 h2 ⊢
  omega

theorem liftJS_ne_msg {α : Type} (r : Except String α) (s : String) :
    liftJS r ≠ .error (Panic.msg s) := by
  cases r <;> simp [liftJS]

theorem index_of_lookup_none (m : Mapper) (key : String) (hk : List.lookup key m = none) :
    m.index key = Any.nil := by
  simp [Mapper.index, hk]

theorem index_of_lookup_some (m : Mapper) (key : String) (x : Any)
    (hk : List.lookup key m = some x) : m.index key = x := by
  simp [Mapper.index, hk]

/-- The function `truncQ` rounds toward zero: the result is no larger in
magnitude than the argument and less than one away from it. -/
theorem truncQ_toward_zero (q : ℚ) :
    |(truncQ q : ℚ)| ≤ |q| ∧ |q| - |(truncQ q : ℚ)| < 1 := by
  unfold truncQ
  by_cases hq : 0 ≤ q
  · rw [if_pos hq]
    have h0 : (0 : ℚ) ≤ (⌊q⌋ : ℚ) := by exact_mod_cast Int.floor_nonneg.mpr hq
    have h1 : (⌊q⌋ : ℚ) ≤ q := Int.floor_le q
    have h2 : q < (⌊q⌋ : ℚ) + 1 := Int.lt_floor_add_one q
    rw [abs_of_nonneg h0, abs_of_nonneg hq]
    constructor <;> linarith
  · rw [if_neg hq]
    have hq' : q < 0 := lt_of_not_ge hq
    have h1 : q ≤ (⌈q⌉ : ℚ) := Int.le_ceil q
    have h2 : (⌈q⌉ : ℚ) < q + 1 := Int.ceil_lt_add_one q
    have h0 : (⌈q⌉ : ℚ) ≤ 0 := by
      have : ⌈q⌉ ≤ 0 := Int.ceil_le.mpr (by simpa using hq'.le)
      exact_mod_cast this
    rw [abs_of_nonpos h0, abs_of_neg hq']
    constructor <;> linarith

/-- The `float64` nearest to 3.9 truncates to 3. -/
theorem truncQ_sample : truncQ (8782019273372467 / 2251799813685248) = 3 := by
  have h0 : (0 : ℚ) ≤ 8782019273372467 / 2251799813685248 := by norm_num
  rw [truncQ, if_pos h0, Int.floor_eq_iff]
  norm_num

theorem GetArray_loop_ne_msg (h : Host) (val : js.Value) (n : Nat) (s : String) :
    ∀ (todo : Nat) (arr : List Any),
      Mapper.GetArray.loop h val n todo arr ≠ .error (Panic.msg s) := by
  intro todo
  induction todo with
  | zero => intro arr; simp [Mapper.GetArray.loop]
  | succ t ih =>
    intro arr
    unfold Mapper.GetArray.loop
    cases h.jsIndex val ((n - (t + 1) : Nat) : Int) with
    | error e => simp
    | ok e => exact ih _

theorem parseArg_loop_ne_msg (h : Host) (keys arg : js.Value) (n : Nat) (s : String) :
    ∀ (todo : Nat) (m : Mapper),
      Mapper.parseArg.loop h keys arg n todo m ≠ .error (Panic.msg s) := by
  intro todo
  induction todo with
  | zero => intro m; simp [Mapper.parseArg.loop]
  | succ t ih =>
    intro m
    unfold Mapper.parseArg.loop
    split
    · simp
    · split
      · simp
      · exact ih _

theorem NewMapper_ne_msg (h : Host) (arg : js.Value) (s : String) :
    NewMapper h arg ≠ .error (Panic.msg s) := by
  unfold NewMapper Mapper.parseArg
  split
  · simp
  · split
    · simp
    · split
      · simp
      · exact parseArg_loop_ne_msg h _ arg _ s _ _

theorem GetArray_handle_ne_msg (h : Host) (m : Mapper) (key : String) (v : js.Value)
    (hv : m.index key = Any.jsValue v) :
    Mapper.GetArray h m key ≠ .error (Panic.msg "unknown type") := by
  unfold Mapper.GetArray
  rw [hv]
  simp only
  split
  · simp
  · split
    · simp
    · exact GetArray_loop_ne_msg h v _ _ _ _

theorem lookup_filter_ne (m : Mapper) (key p : String) (hp : p ≠ key) :
    List.lookup p (m.filter (fun e => e.1 != key)) = List.lookup p m := by
  induction m with
  | nil => rfl
  | cons e rest ih =>
    obtain ⟨k, x⟩ := e
    by_cases hk : k = key
    · subst hk
      have h1 : (p == k) = false := by simpa using hp
      simp [List.filter, List.lookup, h1, ih]
    · have h2 : (k != key) = true := by simpa using hk
      simp only [List.filter, h2, List.lookup]
      rw [ih]

theorem lookup_set (m : Mapper) (key : String) (x : Any) (p : String) :
    List.lookup p (m.set key x) = if p = key then some x else List.lookup p m := by
  unfold Mapper.set
  by_cases hp : p = key
  · subst hp
    simp [List.lookup]
  · have h1 : (p == key) = false := by simpa using hp
    simp only [List.lookup, h1, if_neg hp]
    exact lookup_filter_ne m key p hp

/-- Every entry the loop of `parseArg` leaves in the map was there before or is
the handle `arg.Get(p)` stored under its name `p`. -/
theorem parseArg_loop_entries (h : Host) (keys arg : js.Value) (n : Nat) :
    ∀ (todo : Nat) (m m' : Mapper),
      Mapper.parseArg.loop h keys arg n todo m = .ok m' →
      ∀ p x, List.lookup p m' = some x →
        List.lookup p m = some x ∨ ∃ w, h.jsGet arg p = .ok w ∧ x = Any.jsValue w := by
  intro todo
  induction todo with
  | zero =>
    intro m m' hm p x hx
    simp only [Mapper.parseArg.loop, Except.ok.injEq] at hm
    subst hm
    exact Or.inl hx
  | succ t ih =>
    intro m m' hm p x hx
    unfold Mapper.parseArg.loop at hm
    split at hm
    · simp at hm
    · rename_i k hk
      split at hm
      · simp at hm
      · rename_i w hw
        rcases ih _ m' hm p x hx with h1 | h1
        · rw [lookup_set] at h1
          by_cases hp : p = h.jsString k
          · rw [if_pos hp] at h1
            right
            refine ⟨w, ?_, ?_⟩
            · rw [hp]; exact hw
            · exact (Option.some.inj h1).symm
          · rw [if_neg hp] at h1
            exact Or.inl h1
        · exact Or.inr h1

theorem NewMapper_entries (h : Host) (arg : js.Value) (m' : Mapper)
    (hm : NewMapper h arg = .ok m') (p : String) (x : Any)
    (hx : List.lookup p m' = some x) :
    ∃ w, h.jsGet arg p = .ok w ∧ x = Any.jsValue w := by
  unfold NewMapper Mapper.parseArg at hm
  split at hm
  · simp at hm
  · split at hm
    · simp at hm
    · split at hm
      · simp at hm
      · rcases parseArg_loop_entries h _ arg _ _ _ m' hm p x hx with h1 | h1
        · simp [List.lookup] at h1
        · exact h1

/-- When the host enumerates `names` and `arg.Get` succeeds on each of them, the
loop of `parseArg` returns, and the map it leaves holds `arg.Get(p)` under each
enumerated name `p` and is unchanged elsewhere. -/
theorem parseArg_loop_names (h : Host) (keys arg : js.Value) (n : Nat) :
    ∀ (todo : Nat) (names : List String) (m : Mapper),
      Spec.namesFrom h keys n todo = some names →
      (∀ p ∈ names, ∃ w, h.jsGet arg p = .ok w) →
      ∃ m', Mapper.parseArg.loop h keys arg n todo m = .ok m' ∧
        ∀ p, (p ∈ names → ∃ w, h.jsGet arg p = .ok w ∧
                List.lookup p m' = some (Any.jsValue w)) ∧
             (p ∉ names → List.lookup p m' = List.lookup p m) := by
  intro todo
  induction todo with
  | zero =>
    intro names m hn _
    simp only [Spec.namesFrom, Option.some.injEq] at hn
    subst hn
    exact ⟨m, rfl, fun p => ⟨fun hp => absurd hp (List.not_mem_nil p), fun _ => rfl⟩⟩
  | succ t ih =>
    intro names m hn hg
    unfold Spec.namesFrom at hn
    split at hn
    · simp at hn
    · rename_i k hk
      split at hn
      · rename_i rest hrest
        simp only [Option.some.injEq] at hn
        subst hn
        obtain ⟨w0, hw0⟩ := hg (h.jsString k) (List.mem_cons_self _ _)
        obtain ⟨m', hm', hspec⟩ := ih rest (m.set (h.jsString k) (Any.jsValue w0)) hrest
          (fun p hp => hg p (List.mem_cons_of_mem _ hp))
        refine ⟨m', ?_, ?_⟩
        · unfold Mapper.parseArg.loop
          simp only [hk, hw0]
          exact hm'
        · intro p
          constructor
          · intro hp
            by_cases hpr : p ∈ rest
            · exact (hspec p).1 hpr
            · have hpk : p = h.jsString k := by
                rcases List.mem_cons.mp hp with h1 | h1
                · exact h1
                · exact absurd h1 hpr
              refine ⟨w0, ?_, ?_⟩
              · rw [hpk]; exact hw0
              · rw [(hspec p).2 hpr, lookup_set, if_pos hpk]
          · intro hp
            have hpr : p ∉ rest := fun hc => hp (List.mem_cons_of_mem _ hc)
            have hpk : p ≠ h.jsString k := fun hc => hp (hc ▸ List.mem_cons_self _ _)
            rw [(hspec p).2 hpr, lookup_set, if_neg hpk]
      · simp at hn

/-- When `val.Index(i)` succeeds with `e i` at every index below `n`, the loop
of `GetArray` returns, keeps the length of the slice, leaves the elements
before `n - todo` alone and stores the handle `e i` at every later index `i`. -/
theorem GetArray_loop_spec (h : Host) (val : js.Value) (n : Nat) (e : Nat → js.Value)
    (he : ∀ i, i < n → h.jsIndex val (i : Int) = .ok (e i)) :
    ∀ (todo : Nat) (arr : List Any), todo ≤ n → arr.length = n →
      ∃ out, Mapper.GetArray.loop h val n todo arr = .ok out ∧ out.length = n ∧
        (∀ i, i < n - todo → out[i]? = arr[i]?) ∧
        (∀ i, n - todo ≤ i → i < n → out[i]? = some (Any.jsValue (e i))) := by
  intro todo
  induction todo with
  | zero =>
    intro arr _ hlen
    refine ⟨arr, rfl, hlen, fun _ _ => rfl, ?_⟩
    intro i h1 h2
    omega
  | succ t ih =>
    intro arr ht hlen
    have hidx : n - (t + 1) < n := by omega
    have hlen1 : (arr.set (n - (t + 1)) (Any.jsValue (e (n - (t + 1))))).length = n := by
      rw [List.length_set]; exact hlen
    obtain ⟨out, hout, hl, hlow, hhigh⟩ :=
      ih (arr.set (n - (t + 1)) (Any.jsValue (e (n - (t + 1))))) (by omega) hlen1
    refine ⟨out, ?_, hl, ?_, ?_⟩
    · unfold Mapper.GetArray.loop
      simp only [he _ hidx]
      exact hout
    · intro i hi
      rw [hlow i (by omega)]
      exact List.getElem?_set_ne (by omega)
    · intro i h1 h2
      by_cases hi : i = n - (t + 1)
      · subst hi
        rw [hlow _ (by omega)]
        exact List.getElem?_set_self (by rw [hlen]; exact hidx)
      · exact hhigh i (by omega) h2

theorem GetStructure_ok_iff (h : Host) (g : Globals) (pkgName structName : String)
    (v : js.Value) :
    GetStructure h g pkgName structName = .ok v ↔
      Spec.resolve h g pkgName structName = some v := by
  unfold GetStructure Spec.resolve Spec.lookup
  cases hg : h.jsGet g.WindowGo pkgName with
  | error e => simp
  | ok pkg =>
    cases hp : h.jsTruthy pkg with
    | false => simp [hp]
    | true =>
      cases hg2 : h.jsGet pkg structName with
      | error e => simp [hp, hg2]
      | ok strct =>
        cases hs : h.jsTruthy strct <;> simp [hp, hg2, hs]

theorem GetStructure_error_iff (h : Host) (g : Globals) (pkgName structName : String) :
    (∃ p, GetStructure h g pkgName structName = .error p) ↔
      Spec.resolve h g pkgName structName = none := by
  constructor
  · rintro ⟨p, hp⟩
    cases hr : Spec.resolve h g pkgName structName with
    | none => rfl
    | some v =>
      rw [(GetStructure_ok_iff h g pkgName structName v).mpr hr] at hp
      simp at hp
  · intro hr
    cases hg : GetStructure h g pkgName structName with
    | error p => exact ⟨p, rfl⟩
    | ok v =>
      rw [(GetStructure_ok_iff h g pkgName structName v).mp hg] at hr
      simp at hr

/-! ## Theorems -/

/-- C10: the untyped getter `Mapper.Get` is total (it returns a value, never a
panic): the stored value when the key is present, the nil interface when it is
absent; it is a read of the map and gives back nothing but that value. -/
theorem Mapper_Get_total (m : Mapper) (key : String) :
    (∀ x, List.lookup key m = some x → Mapper.Get m key = x) ∧
    (List.lookup key m = none → Mapper.Get m key = Any.nil) := by
  constructor
  · intro x hx
    exact index_of_lookup_some m key x hx
  · intro hx
    exact index_of_lookup_none m key hx

theorem Mapper_Get_total_witness :
    Mapper.Get [("a", Any.int 1)] "a" = Any.int 1 ∧
    Mapper.Get [("a", Any.int 1)] "b" = Any.nil :=
  ⟨(Mapper_Get_total [("a", Any.int 1)] "a").1 (Any.int 1) (by rfl),
   (Mapper_Get_total [("a", Any.int 1)] "b").2 (by rfl)⟩

/-- C2: every typed getter panics with "unknown type", and so returns no
value, when the key is absent; and each getter panics with "unknown type"
exactly when the dynamic type of `m[key]` is not one of the cases of its type
switch (a native string read by `GetInt`, a native int read by `GetString` or
`GetBool`, ...). -/
theorem typed_getters_unknown_type (h : Host) (m : Mapper) (key : String) :
    (List.lookup key m = none →
      Mapper.GetInt h m key = .error (Panic.msg "unknown type") ∧
      Mapper.GetFloat h m key = .error (Panic.msg "unknown type") ∧
      Mapper.GetString h m key = .error (Panic.msg "unknown type") ∧
      Mapper.GetBool h m key = .error (Panic.msg "unknown type") ∧
      Mapper.GetArray h m key = .error (Panic.msg "unknown type") ∧
      Mapper.GetMap h m key = .error (Panic.msg "unknown type")) ∧
    (Mapper.GetInt h m key = .error (Panic.msg "unknown type") ↔
      (m.index key).kind ∉ [Kind.int, Kind.int64, Kind.int32, Kind.int16, Kind.int8,
        Kind.float64, Kind.float32, Kind.jsValue]) ∧
    (Mapper.GetFloat h m key = .error (Panic.msg "unknown type") ↔
      (m.index key).kind ∉ [Kind.float64, Kind.float32, Kind.jsValue]) ∧
    (Mapper.GetString h m key = .error (Panic.msg "unknown type") ↔
      (m.index key).kind ∉ [Kind.string, Kind.jsValue]) ∧
    (Mapper.GetBool h m key = .error (Panic.msg "unknown type") ↔
      (m.index key).kind ∉ [Kind.bool, Kind.jsValue]) ∧
    (Mapper.GetArray h m key = .error (Panic.msg "unknown type") ↔
      (m.index key).kind ∉ [Kind.slice, Kind.jsValue]) ∧
    (Mapper.GetMap h m key = .error (Panic.msg "unknown type") ↔
      (m.index key).kind ∉ [Kind.mapper, Kind.jsValue]) := by
  refine ⟨?_, ?_, ?_, ?_, ?_, ?_, ?_⟩
  · intro hk
    have hn := index_of_lookup_none m key hk
    simp [Mapper.GetInt, Mapper.GetFloat, Mapper.GetString, Mapper.GetBool,
      Mapper.GetArray, Mapper.GetMap, hn]
  · cases hx : m.index key <;>
      simp [Mapper.GetInt, hx, Any.kind, liftJS_ne_msg]
  · cases hx : m.index key <;>
      simp [Mapper.GetFloat, hx, Any.kind, liftJS_ne_msg]
  · cases hx : m.index key <;>
      simp [Mapper.GetString, hx, Any.kind]
  · cases hx : m.index key <;>
      simp [Mapper.GetBool, hx, Any.kind, liftJS_ne_msg]
  · cases hx : m.index key with
    | jsValue v =>
      have := GetArray_handle_ne_msg h m key v hx
      simp [Any.kind, this]
    | _ => simp [Mapper.GetArray, hx, Any.kind]
  · cases hx : m.index key <;>
      simp [Mapper.GetMap, hx, Any.kind, NewMapper_ne_msg]

theorem typed_getters_unknown_type_witness :
    (Mapper.GetInt sampleHost [("s", Any.string "x")] "t" = .error (Panic.msg "unknown type") ∧
      Mapper.GetFloat sampleHost [("s", Any.string "x")] "t" = .error (Panic.msg "unknown type") ∧
      Mapper.GetString sampleHost [("s", Any.string "x")] "t" = .error (Panic.msg "unknown type") ∧
      Mapper.GetBool sampleHost [("s", Any.string "x")] "t" = .error (Panic.msg "unknown type") ∧
      Mapper.GetArray sampleHost [("s", Any.string "x")] "t" = .error (Panic.msg "unknown type") ∧
      Mapper.GetMap sampleHost [("s", Any.string "x")] "t" = .error (Panic.msg "unknown type")) ∧
    Mapper.GetInt sampleHost [("s", Any.string "x")] "s" = .error (Panic.msg "unknown type") ∧
    Mapper.GetString sampleHost [("n", Any.int 3)] "n" = .error (Panic.msg "unknown type") ∧
    Mapper.GetBool sampleHost [("n", Any.int 3)] "n" = .error (Panic.msg "unknown type") :=
  ⟨(typed_getters_unknown_type sampleHost [("s", Any.string "x")] "t").1 (by rfl),
   (typed_getters_unknown_type sampleHost [("s", Any.string "x")] "s").2.1.mpr (by decide),
   (typed_getters_unknown_type sampleHost [("n", Any.int 3)] "n").2.2.2.1.mpr (by decide),
   (typed_getters_unknown_type sampleHost [("n", Any.int 3)] "n").2.2.2.2.1.mpr (by decide)⟩

/-- C1 as stated fails: a native `int` is a native numeric value that the
specification widens to 3.0, and `GetFloat` panics on it; a native `uint` is a
native numeric value that the specification converts to 3, and `GetInt` panics
on it. -/
theorem native_numeric_counterexample :
    (Spec.isNativeNumeric (Any.int 3) = true ∧
      Spec.floatOf (Any.int 3) = some (GoFloat.finite 3) ∧
      Mapper.GetFloat sampleHost [("n", Any.int 3)] "n" = .error (Panic.msg "unknown type")) ∧
    (Spec.isNativeNumeric (Any.uint 3) = true ∧
      Spec.intOf (Any.uint 3) = some 3 ∧
      Mapper.GetInt sampleHost [("n", Any.uint 3)] "n" = .error (Panic.msg "unknown type")) := by
  refine ⟨⟨by decide, ?_, by rfl⟩, ⟨by decide, by rfl, by rfl⟩⟩
  simp [Spec.floatOf]

/-- C1, amended: when the value stored at a key is a native `int`, `int64`,
`int32`, `int16`, `int8`, `float64` or `float32`, `GetInt` does not fail, and it
returns the value converted to int (an integer as it is, a float truncated
toward zero) whenever that conversion fits `int`; when the stored value is a
native `float64` or `float32`, `GetFloat` returns it widened to `float64`. -/
theorem native_numeric_getters (h : Host) (m : Mapper) (key : String) (x : Any)
    (hx : m.index key = x) :
    (x.kind ∈ [Kind.int, Kind.int64, Kind.int32, Kind.int16, Kind.int8,
        Kind.float64, Kind.float32] →
      (∃ t, Mapper.GetInt h m key = .ok t) ∧
      ∀ t, Spec.intOf x = some t → -(2 : Int) ^ 63 ≤ t → t < (2 : Int) ^ 63 →
        Mapper.GetInt h m key = .ok t) ∧
    (x.kind ∈ [Kind.float64, Kind.float32] →
      ∀ f, Spec.floatOf x = some f → Mapper.GetFloat h m key = .ok f) := by
  constructor
  · intro hk
    constructor
    · cases x <;> simp [Any.kind] at hk <;> simp [Mapper.GetInt, hx]
    · intro t ht h1 h2
      cases x <;> simp [Any.kind] at hk
      case int v =>
        simp only [Spec.intOf, Option.some.injEq] at ht
        simp [Mapper.GetInt, hx, ht]
      case int64 v =>
        simp only [Spec.intOf, Option.some.injEq] at ht
        subst ht
        simp [Mapper.GetInt, hx, toInt_of_inRange _ h1 h2]
      case int32 v =>
        simp only [Spec.intOf, Option.some.injEq] at ht
        subst ht
        simp [Mapper.GetInt, hx, toInt_of_inRange _ h1 h2]
      case int16 v =>
        simp only [Spec.intOf, Option.some.injEq] at ht
        subst ht
        simp [Mapper.GetInt, hx, toInt_of_inRange _ h1 h2]
      case int8 v =>
        simp only [Spec.intOf, Option.some.injEq] at ht
        subst ht
        simp [Mapper.GetInt, hx, toInt_of_inRange _ h1 h2]
      case float64 f =>
        cases f <;> simp [Spec.intOf] at ht
        case finite q =>
          subst ht
          simp only [Mapper.GetInt, hx, floatToInt]
          rw [if_pos ⟨h1, h2⟩]
        case negZero =>
          subst ht
          simp [Mapper.GetInt, hx, floatToInt]
      case float32 f =>
        cases f <;> simp [Spec.intOf] at ht
        case finite q =>
          subst ht
          simp only [Mapper.GetInt, hx, floatToInt]
          rw [if_pos ⟨h1, h2⟩]
        case negZero =>
          subst ht
          simp [Mapper.GetInt, hx, floatToInt]
  · intro hk f hf
    cases x <;> simp [Any.kind] at hk
    case float64 g =>
      simp only [Spec.floatOf, Option.some.injEq] at hf
      simp [Mapper.GetFloat, hx, hf]
    case float32 g =>
      simp only [Spec.floatOf, Option.some.injEq] at hf
      simp [Mapper.GetFloat, hx, hf, toFloat64]

theorem native_numeric_getters_witness :
    Mapper.GetInt sampleHost [("n", Any.float64 (.finite (8782019273372467 / 2251799813685248)))] "n" = .ok 3 ∧
    Mapper.GetFloat sampleHost [("n", Any.float64 (.finite (8782019273372467 / 2251799813685248)))] "n"
      = .ok (.finite (8782019273372467 / 2251799813685248)) ∧
    Mapper.GetInt sampleHost [("k", Any.int8 (-7))] "k" = .ok (-7) :=
  ⟨((native_numeric_getters sampleHost [("n", Any.float64 (.finite (8782019273372467 / 2251799813685248)))] "n"
      (Any.float64 (.finite (8782019273372467 / 2251799813685248))) (by rfl)).1 (by decide)).2 3
      (by simp [Spec.intOf, truncQ_sample]) (by decide) (by decide),
   (native_numeric_getters sampleHost [("n", Any.float64 (.finite (8782019273372467 / 2251799813685248)))] "n"
      (Any.float64 (.finite (8782019273372467 / 2251799813685248))) (by rfl)).2 (by decide) _ (by rfl),
   ((native_numeric_getters sampleHost [("k", Any.int8 (-7))] "k"
      (Any.int8 (-7)) (by rfl)).1 (by decide)).2 (-7) (by rfl) (by decide) (by decide)⟩

/-- C3: when the value stored at a key is a host handle `v`, `GetInt`,
`GetFloat`, `GetString` and `GetBool` give what `v.Int()`, `v.Float()`,
`v.String()` and `v.Bool()` give (a panic of the host coercion included); and
every entry of a map built by `NewMapper(arg)` is the host handle `arg.Get(k)`
under its name `k`, so the four getters delegate on each of its keys. -/
theorem scalar_getters_delegate (h : Host) (m : Mapper) (key : String) (v : js.Value)
    (hv : m.index key = Any.jsValue v) :
    (Mapper.GetInt h m key = liftJS (h.jsInt v) ∧
      Mapper.GetFloat h m key = liftJS (h.jsFloat v) ∧
      Mapper.GetString h m key = .ok (h.jsString v) ∧
      Mapper.GetBool h m key = liftJS (h.jsBool v)) ∧
    (∀ (arg : js.Value) (m' : Mapper) (k : String) (x : Any),
      NewMapper h arg = .ok m' → List.lookup k m' = some x →
      ∃ w, h.jsGet arg k = .ok w ∧ x = Any.jsValue w ∧
        Mapper.GetInt h m' k = liftJS (h.jsInt w) ∧
        Mapper.GetFloat h m' k = liftJS (h.jsFloat w) ∧
        Mapper.GetString h m' k = .ok (h.jsString w) ∧
        Mapper.GetBool h m' k = liftJS (h.jsBool w)) := by
  constructor
  · simp [Mapper.GetInt, Mapper.GetFloat, Mapper.GetString, Mapper.GetBool, hv]
  · intro arg m' k x hm hx
    obtain ⟨w, hw, hxw⟩ := NewMapper_entries h arg m' hm k x hx
    have hi : m'.index k = Any.jsValue w := by
      rw [index_of_lookup_some m' k x hx, hxw]
    refine ⟨w, hw, hxw, ?_⟩
    simp [Mapper.GetInt, Mapper.GetFloat, Mapper.GetString, Mapper.GetBool, hi]

theorem scalar_getters_delegate_witness :
    (Mapper.GetInt sampleHost [("a", Any.jsValue ⟨12⟩)] "a" = liftJS (sampleHost.jsInt ⟨12⟩) ∧
      Mapper.GetFloat sampleHost [("a", Any.jsValue ⟨12⟩)] "a"
        = liftJS (sampleHost.jsFloat ⟨12⟩) ∧
      Mapper.GetString sampleHost [("a", Any.jsValue ⟨12⟩)] "a"
        = .ok (sampleHost.jsString ⟨12⟩) ∧
      Mapper.GetBool sampleHost [("a", Any.jsValue ⟨12⟩)] "a"
        = liftJS (sampleHost.jsBool ⟨12⟩)) ∧
    (∃ w, sampleHost.jsGet ⟨11⟩ "w" = .ok w ∧ Any.jsValue ⟨12⟩ = Any.jsValue w ∧
        Mapper.GetInt sampleHost [("h", Any.jsValue ⟨13⟩), ("w", Any.jsValue ⟨12⟩)] "w"
          = liftJS (sampleHost.jsInt w) ∧
        Mapper.GetFloat sampleHost [("h", Any.jsValue ⟨13⟩), ("w", Any.jsValue ⟨12⟩)] "w"
          = liftJS (sampleHost.jsFloat w) ∧
        Mapper.GetString sampleHost [("h", Any.jsValue ⟨13⟩), ("w", Any.jsValue ⟨12⟩)] "w"
          = .ok (sampleHost.jsString w) ∧
        Mapper.GetBool sampleHost [("h", Any.jsValue ⟨13⟩), ("w", Any.jsValue ⟨12⟩)] "w"
          = liftJS (sampleHost.jsBool w)) :=
  ⟨(scalar_getters_delegate sampleHost [("a", Any.jsValue ⟨12⟩)] "a" ⟨12⟩ (by rfl)).1,
   (scalar_getters_delegate sampleHost [("a", Any.jsValue ⟨12⟩)] "a" ⟨12⟩ (by rfl)).2 ⟨11⟩
      [("h", Any.jsValue ⟨13⟩), ("w", Any.jsValue ⟨12⟩)] "w" (Any.jsValue ⟨12⟩)
      (by rfl) (by rfl)⟩

/-- C4: when the value stored at a key is a host handle `v` whose reported
length is `n ≥ 0`, and `v.Index(i)` is the handle `e i` at every index below
`n`, `GetArray` returns a slice of exactly `n` elements whose `i`-th element is
the handle `e i`. -/
theorem GetArray_handle (h : Host) (m : Mapper) (key : String) (v : js.Value) (n : Int)
    (e : Nat → js.Value) (hv : m.index key = Any.jsValue v)
    (hlen : h.jsLength v = .ok n) (hn : 0 ≤ n)
    (he : ∀ i : Nat, (i : Int) < n → h.jsIndex v (i : Int) = .ok (e i)) :
    ∃ arr, Mapper.GetArray h m key = .ok arr ∧ (arr.length : Int) = n ∧
      ∀ i : Nat, (i : Int) < n → arr[i]? = some (Any.jsValue (e i)) := by
  have he' : ∀ i, i < n.toNat → h.jsIndex v (i : Int) = .ok (e i) := by
    intro i hi
    exact he i (by omega)
  obtain ⟨out, hout, hl, _, hhigh⟩ :=
    GetArray_loop_spec h v n.toNat e he' n.toNat (List.replicate n.toNat Any.nil)
      (Nat.le_refl _) (List.length_replicate _ _)
  refine ⟨out, ?_, ?_, ?_⟩
  · unfold Mapper.GetArray
    rw [hv]
    simp only [hlen]
    rw [if_neg (by omega)]
    exact hout
  · rw [hl]; omega
  · intro i hi
    exact hhigh i (by omega) (by omega)

theorem GetArray_handle_witness :
    ∃ arr, Mapper.GetArray sampleHost [("xs", Any.jsValue ⟨18⟩)] "xs" = .ok arr ∧
      (arr.length : Int) = 3 ∧
      ∀ i : Nat, (i : Int) < 3 →
        arr[i]? = some (Any.jsValue (([⟨12⟩, ⟨13⟩, ⟨15⟩] : List js.Value).getD i ⟨0⟩)) :=
  GetArray_handle sampleHost [("xs", Any.jsValue ⟨18⟩)] "xs" ⟨18⟩ 3
    (fun i => ([⟨12⟩, ⟨13⟩, ⟨15⟩] : List js.Value).getD i ⟨0⟩) (by rfl) (by rfl) (by decide)
    (by
      intro i hi
      have hi' : i < 3 := by omega
      interval_cases i <;> rfl)

/-- C5: when the value stored at a key is a host handle `v` for which the host
enumerates the own-property names `names`, and `v.Get(p)` succeeds on each of
them, `GetMap` returns a `Mapper` whose keys are exactly `names` and whose value
at each such name `p` is the host handle `v.Get(p)`. -/
theorem GetMap_handle (h : Host) (m : Mapper) (key : String) (v : js.Value)
    (names : List String) (hv : m.index key = Any.jsValue v)
    (hn : Spec.ownNames h v = some names)
    (hg : ∀ p ∈ names, ∃ w, h.jsGet v p = .ok w) :
    ∃ m', Mapper.GetMap h m key = .ok m' ∧
      (∀ p, (List.lookup p m').isSome = true ↔ p ∈ names) ∧
      (∀ p ∈ names, ∃ w, h.jsGet v p = .ok w ∧ List.lookup p m' = some (Any.jsValue w)) := by
  unfold Spec.ownNames at hn
  split at hn
  · simp at hn
  · rename_i object hobj
    split at hn
    · simp at hn
    · rename_i keys hkeys
      split at hn
      · simp at hn
      · rename_i len hlen
        obtain ⟨m', hm', hspec⟩ :=
          parseArg_loop_names h keys v len.toNat len.toNat names [] hn hg
        refine ⟨m', ?_, ?_, ?_⟩
        · unfold Mapper.GetMap
          rw [hv]
          simp only [NewMapper, Mapper.parseArg, hobj, hkeys, hlen]
          exact hm'
        · intro p
          constructor
          · intro hp
            by_contra hc
            rw [(hspec p).2 hc] at hp
            simp [List.lookup] at hp
          · intro hp
            obtain ⟨w, _, hw⟩ := (hspec p).1 hp
            simp [hw]
        · intro p hp
          exact (hspec p).1 hp

theorem GetMap_handle_witness :
    ∃ m', Mapper.GetMap sampleHost [("r", Any.jsValue ⟨11⟩)] "r" = .ok m' ∧
      (∀ p, (List.lookup p m').isSome = true ↔ p ∈ ["w", "h"]) ∧
      (∀ p ∈ ["w", "h"], ∃ w, sampleHost.jsGet ⟨11⟩ p = .ok w ∧
        List.lookup p m' = some (Any.jsValue w)) :=
  GetMap_handle sampleHost [("r", Any.jsValue ⟨11⟩)] "r" ⟨11⟩ ["w", "h"] (by rfl) (by rfl)
    (by
      intro p hp
      simp only [List.mem_cons, List.mem_singleton, List.not_mem_nil, or_false] at hp
      rcases hp with rfl | rfl
      · exact ⟨⟨12⟩, rfl⟩
      · exact ⟨⟨13⟩, rfl⟩)

/-- C6: `GetStructure` panics exactly when the namespace lookup or the
structure lookup misses, and returns the handle at `root[pkgName][structName]`
exactly when both hit; when it panics, `WailsCall` panics too with nothing
handed to the host: no method is called or invoked. -/
theorem GetStructure_resolves (h : Host) (g : Globals) (pkgName structName : String) :
    (∀ v, GetStructure h g pkgName structName = .ok v ↔
      Spec.resolve h g pkgName structName = some v) ∧
    ((∃ p, GetStructure h g pkgName structName = .error p) ↔
      Spec.resolve h g pkgName structName = none) ∧
    (Spec.resolve h g pkgName structName = none →
      ∀ (funcName : String) (cb : Option GoFunc) (args : List Any),
        (WailsCall h g pkgName structName funcName cb args).trace = [] ∧
        ∃ p, (WailsCall h g pkgName structName funcName cb args).result = .error p) := by
  refine ⟨GetStructure_ok_iff h g pkgName structName,
    GetStructure_error_iff h g pkgName structName, ?_⟩
  intro hr funcName cb args
  obtain ⟨p, hp⟩ := (GetStructure_error_iff h g pkgName structName).mpr hr
  simp [WailsCall, hp]

theorem GetStructure_resolves_witness :
    GetStructure sampleHost sampleGlobals "main" "Foo" = .ok ⟨6⟩ ∧
    (∃ p, GetStructure sampleHost sampleGlobals "main" "Bar" = .error p) ∧
    ((WailsCall sampleHost sampleGlobals "main" "Bar" "Greet" none []).trace = [] ∧
      ∃ p, (WailsCall sampleHost sampleGlobals "main" "Bar" "Greet" none []).result
        = .error p) :=
  ⟨((GetStructure_resolves sampleHost sampleGlobals "main" "Foo").1 ⟨6⟩).mpr (by rfl),
   (GetStructure_resolves sampleHost sampleGlobals "main" "Bar").2.1.mpr (by rfl),
   (GetStructure_resolves sampleHost sampleGlobals "main" "Bar").2.2 (by rfl) "Greet" none []⟩

/-- C7 as stated fails in fire-and-collect mode: with a nil callback and a
method name missing on the resolved structure, `WailsCall` makes no check of its
own, hands the call to the host, and ends with the panic of the host's `Call`,
not with "function not found". -/
theorem missing_method_nil_callback_counterexample :
    Spec.resolve sampleHost sampleGlobals "main" "Foo" = some ⟨6⟩ ∧
    Spec.lookup sampleHost ⟨6⟩ "Missing" = none ∧
    (WailsCall sampleHost sampleGlobals "main" "Foo" "Missing" none []).trace
      = [Event.call ⟨6⟩ "Missing" []] ∧
    (WailsCall sampleHost sampleGlobals "main" "Foo" "Missing" none []).result
      = .error (Panic.js
          "syscall/js: Value.Call: property Missing is not a function, got undefined") ∧
    (MainCall sampleHost sampleGlobals "Foo" "Missing" none []).result
      ≠ .error (Panic.msg "function not found: Missing") := by
  refine ⟨by rfl, by rfl, by rfl, by rfl, ?_⟩
  intro hc
  have hr : (MainCall sampleHost sampleGlobals "Foo" "Missing" none []).result
      = .error (Panic.js
          "syscall/js: Value.Call: property Missing is not a function, got undefined") := by
    rfl
  rw [hr] at hc
  cases hc

/-- C7, amended: when namespace and structure resolve and the named method is
missing on the structure, a call with a non-nil callback panics with
"function not found: " followed by the name, with nothing handed to the host
(no method invoked, no continuation registered), through `WailsCall` and
through `MainCall` alike; a call with a nil callback is handed to the host's
`Call` unchecked and ends as that `Call` does. -/
theorem missing_method_fails (h : Host) (g : Globals) (pkgName structName funcName : String)
    (strct x : js.Value) (args : List Any)
    (hs : GetStructure h g pkgName structName = .ok strct)
    (hget : h.jsGet strct funcName = .ok x) (hx : h.jsTruthy x = false) :
    (∀ f : GoFunc,
      WailsCall h g pkgName structName funcName (some f) args =
        { trace := [], result := .error (Panic.msg ("function not found: " ++ funcName)) }) ∧
    (∀ cb : Option GoFunc,
      MainCall h g structName funcName cb args
        = WailsCall h g "main" structName funcName cb args) ∧
    WailsCall h g pkgName structName funcName none args =
      { trace := [Event.call strct funcName args],
        result := liftJS (h.jsCall strct funcName args) } := by
  refine ⟨?_, fun _ => rfl, ?_⟩
  · intro f
    simp [WailsCall, hs, hget, hx]
  · simp [WailsCall, hs]

theorem missing_method_fails_witness :
    (∀ f : GoFunc,
      WailsCall sampleHost sampleGlobals "main" "Foo" "Missing" (some f) [Any.int 1] =
        { trace := [], result := .error (Panic.msg ("function not found: " ++ "Missing")) }) ∧
    (∀ cb : Option GoFunc,
      MainCall sampleHost sampleGlobals "Foo" "Missing" cb [Any.int 1]
        = WailsCall sampleHost sampleGlobals "main" "Foo" "Missing" cb [Any.int 1]) ∧
    WailsCall sampleHost sampleGlobals "main" "Foo" "Missing" none [Any.int 1] =
      { trace := [Event.call ⟨6⟩ "Missing" [Any.int 1]],
        result := liftJS (sampleHost.jsCall ⟨6⟩ "Missing" [Any.int 1]) } :=
  missing_method_fails sampleHost sampleGlobals "main" "Foo" "Missing" ⟨6⟩ ⟨0⟩ [Any.int 1]
    (by rfl) (by rfl) (by rfl)

/-- C8: with structure `strct` resolved, a call with a nil callback issues the
one event `strct.Call(funcName, args...)`, the arguments as given, returns what
that call gives and registers no continuation; a call with a non-nil callback
`f`, the method found and its invocation returning `promise`, issues exactly the
invocation of the method with the same arguments followed by one
`promise.Call("then", js.FuncOf(f))`. -/
theorem WailsCall_two_modes (h : Host) (g : Globals) (pkgName structName funcName : String)
    (strct : js.Value) (args : List Any)
    (hs : GetStructure h g pkgName structName = .ok strct) :
    WailsCall h g pkgName structName funcName none args =
      { trace := [Event.call strct funcName args],
        result := liftJS (h.jsCall strct funcName args) } ∧
    (∀ (f : GoFunc) (function promise : js.Value),
      h.jsGet strct funcName = .ok function → h.jsTruthy function = true →
      h.jsInvoke function args = .ok promise →
      WailsCall h g pkgName structName funcName (some f) args =
        { trace := [Event.invoke function args,
                    Event.call promise "then" [Any.func (Closure.user f)]],
          result := liftJS (h.jsCall promise "then" [Any.func (Closure.user f)]) }) := by
  constructor
  · simp [WailsCall, hs]
  · intro f function promise hget ht hinv
    simp [WailsCall, hs, hget, ht, hinv]

theorem WailsCall_two_modes_witness :
    WailsCall sampleHost sampleGlobals "main" "Foo" "Greet" none [Any.string "a", Any.int 2] =
      { trace := [Event.call ⟨6⟩ "Greet" [Any.string "a", Any.int 2]],
        result := .ok ⟨8⟩ } ∧
    WailsCall sampleHost sampleGlobals "main" "Foo" "Greet" (some ⟨1⟩)
        [Any.string "a", Any.int 2] =
      { trace := [Event.invoke ⟨7⟩ [Any.string "a", Any.int 2],
                  Event.call ⟨8⟩ "then" [Any.func (Closure.user ⟨1⟩)]],
        result := .ok ⟨9⟩ } :=
  ⟨(WailsCall_two_modes sampleHost sampleGlobals "main" "Foo" "Greet" ⟨6⟩
      [Any.string "a", Any.int 2] (by rfl)).1,
   (WailsCall_two_modes sampleHost sampleGlobals "main" "Foo" "Greet" ⟨6⟩
      [Any.string "a", Any.int 2] (by rfl)).2 ⟨1⟩ ⟨7⟩ ⟨8⟩ (by rfl) (by rfl) (by rfl)⟩

/-- C9: `WindowGetSize` first calls the host method "WindowGetSize" on the
runtime handle, then registers on the pending result its func literal as the
"then" continuation; and for every settlement object `r` whose fields "w" and
"h" the host reports as the integers `a` and `b`, that continuation runs the
callback of the caller exactly once, with `(a, b)`: width first, height second. -/
theorem WindowGetSize_callback (h : Host) (g : Globals) (cb : GoFunc) :
    (∃ rest, (WindowGetSize h g (some cb)).trace
      = Event.call g.windowRuntime "WindowGetSize" [] :: rest) ∧
    (∀ promise, h.jsCall g.windowRuntime "WindowGetSize" [] = .ok promise →
      (WindowGetSize h g (some cb)).trace =
        [Event.call g.windowRuntime "WindowGetSize" [],
         Event.call promise "then" [Any.func (Closure.windowGetSize (some cb))]]) ∧
    Closure.body h (Closure.windowGetSize (some cb))
      = some (WindowGetSize.continuation h (some cb)) ∧
    (∀ (this r : js.Value) (rest : List js.Value) (w hh : js.Value) (a b : Int),
      h.jsGet r "w" = .ok w → h.jsInt w = .ok a →
      h.jsGet r "h" = .ok hh → h.jsInt hh = .ok b →
      WindowGetSize.continuation h (some cb) this (r :: rest) =
        { trace := [Event.goCall cb [Any.int a, Any.int b]], result := .ok Any.nil }) := by
  refine ⟨?_, ?_, rfl, ?_⟩
  · unfold WindowGetSize
    split
    · exact ⟨_, rfl⟩
    · split <;> exact ⟨_, rfl⟩
  · intro promise hp
    unfold WindowGetSize
    simp only [hp]
    split <;> rfl
  · intro this r rest w hh a b hw ha hhh hb
    simp [WindowGetSize.continuation, hw, ha, hhh, hb]

theorem WindowGetSize_callback_witness :
    (WindowGetSize sampleHost sampleGlobals (some ⟨5⟩)).trace =
      [Event.call ⟨3⟩ "WindowGetSize" [],
       Event.call ⟨17⟩ "then" [Any.func (Closure.windowGetSize (some ⟨5⟩))]] ∧
    WindowGetSize.continuation sampleHost (some ⟨5⟩) ⟨0⟩ [⟨11⟩] =
      { trace := [Event.goCall ⟨5⟩ [Any.int 800, Any.int 600]], result := .ok Any.nil } :=
  ⟨(WindowGetSize_callback sampleHost sampleGlobals ⟨5⟩).2.1 ⟨17⟩ (by rfl),
   (WindowGetSize_callback sampleHost sampleGlobals ⟨5⟩).2.2.2 ⟨0⟩ ⟨11⟩ [] ⟨12⟩ ⟨13⟩ 800 600
      (by rfl) (by rfl) (by rfl) (by rfl)⟩

end wailsext
